import Mathlib

/-!
# Verification of the ServerCMD request-resolution pipeline

This file is a shallow embedding, in Lean 4, of the core request-to-resource
resolution pipeline of the ServerCMD static file server:

* the route-rewrite engine (`ROUTES` rule construction and the `route`
  function of `src/index.ts`),
* the static filesystem resolver (`src/static.ts`: dotfile policy, trailing
  slash handling, index fallback, extension fallback, and the conditional
  ETag response in its inner `resp` function),
* the content negotiator (`resp.format` of `src/index.ts`),
* the orchestration handlers (`genHandler`, `fileHandler`,
  `notFoundHandler`, `forbiddenHandler`, `errorHandler` of `src/index.ts`).

The filesystem, the `accepts` content-negotiation library, the `etag`
fingerprint library and the MIME lookup table are external collaborators of
the core; they are modelled as function-valued parameters gathered in the
`Serve.Cfg` structure.  JavaScript's `decodeURI`/`encodeURI` are modelled as
the identity, which is exact for the percent-free ASCII paths used in every
statement below.

All string operations are defined on the underlying character lists so that
every definition evaluates by kernel reduction (`decide` / `rfl`).
-/

namespace Serve

/-! ## JavaScript string primitives

Each helper mirrors the semantics of the JavaScript string method used by
the source at the call sites that matter (short ASCII paths). -/

/-- JS `a.startsWith(b)`. -/
def jsStartsWith (s pre : String) : Bool :=
  pre.data.isPrefixOf s.data

/-- JS `a.endsWith(b)`. -/
def jsEndsWith (s suf : String) : Bool :=
  suf.data.isSuffixOf s.data

/-- Does `pat` occur as a contiguous sublist of the second argument? -/
def listInfix (pat : List Char) : List Char → Bool
  | [] => pat.isEmpty
  | c :: rest => pat.isPrefixOf (c :: rest) || listInfix pat rest

/-- JS `a.includes(b)` (for nonempty `b`, as used by the source). -/
def jsIncludes (s sub : String) : Bool :=
  listInfix sub.data s.data

/-- First `n` characters, JS `a.slice(0, n)` for `0 ≤ n`. -/
def jsTake (s : String) (n : Nat) : String :=
  String.mk (s.data.take n)

/-- Drop the first `n` characters, JS `a.slice(n)` for `0 ≤ n`. -/
def jsDrop (s : String) (n : Nat) : String :=
  String.mk (s.data.drop n)

/-- Character count of a string (JS `a.length`; identical for the ASCII
strings appearing in this development). -/
def strLen (s : String) : Nat :=
  s.data.length

/-- Drop the last `n` characters, JS `a.slice(0, -n)`. -/
def jsDropRight (s : String) (n : Nat) : String :=
  String.mk (s.data.take (s.data.length - n))

/-- Character-wise lower casing, JS `a.toLowerCase()` on ASCII text. -/
def lowerStr (s : String) : String :=
  String.mk (s.data.map Char.toLower)

/-- JS `s.split(c)` for a single-character separator. -/
def splitChar (c : Char) (s : String) : List String :=
  (s.data.foldr
    (fun ch acc =>
      match acc with
      | [] => [[ch]]
      | cur :: rest => if ch = c then [] :: cur :: rest else (ch :: cur) :: rest)
    [[]]).map String.mk

/-- Join a list of strings with a single-character separator
(JS `parts.join(c)`). -/
def joinSep (c : Char) : List String → String
  | [] => ""
  | [s] => s
  | s :: rest => s ++ String.mk [c] ++ joinSep c rest

/-! ## The route engine (`src/index.ts`, "ROUTES" section)

A compiled route rule.  `tryMatch` is the rule's `try` method (renamed:
`try` is a Lean keyword). -/

structure Route where
  redirect : Bool
  tryMatch : String → Option String

/-- The anchored-literal fragment of JavaScript `RegExp` semantics used by
qualified route rules: the compiled pattern is `^` followed by the literal
requirement text (the grammar forces the requirement to begin with `/`, so
the `startsWith('^')` test in the source is always false and the anchor is
always prepended), optionally with the `i` flag.  `test` on such a pattern
is a (case-insensitive) prefix check, and `replace` substitutes the matched
prefix — whose length equals the pattern's length, since `toLower` is
character-wise — with the replacement text.  Faithful for requirement
paths free of regex metacharacters and replacements free of `$` escapes,
which covers every statement below. -/
def regexTryLit (pat : String) (ci : Bool) (rep : String) (p : String) : Option String :=
  let ok := if ci then jsStartsWith (lowerStr p) (lowerStr pat) else jsStartsWith p pat
  if ok then some (rep ++ jsDrop p (strLen pat)) else none

/-- Rule construction from the captured groups `q`, `req`, `op`, `res` of
the route-line grammar
`^(?<q>&?&?)\s*(?<req>\/\S*?)\s*(?<op>[:=>])\s*(?<res>\S*?)$`
(`src/index.ts`, `ROUTES` map).  A nonempty qualifier compiles the
requirement minus its mandatory trailing slash into an anchored regex whose
`i` flag is present exactly when the qualifier is a single `&`; without a
qualifier the rule is a literal prefix match, and the JS
`p.replace(req, res)` replaces the first occurrence of `req`, which is the
matched prefix. -/
def mkRoute (q req op res : String) : Route where
  redirect := op = ">"
  tryMatch :=
    if q ≠ "" then
      regexTryLit (jsDropRight req 1) (q = "&") res
    else
      fun p => if jsStartsWith p req then some (res ++ jsDrop p (strLen req)) else none

/-- JS `p.replace(/\/+$/, '/')`: collapse a trailing run of slashes to a
single slash. -/
def collapseTrailingSlashes (s : String) : String :=
  if jsEndsWith s "/" then
    String.mk ((s.data.reverse.dropWhile (fun c => c = '/')).reverse) ++ "/"
  else s

/-- The `route` function of `src/index.ts`: try the rules in order, return
the first rule's outcome (with trailing slashes collapsed), or pass the
path through unchanged with the redirect flag cleared. -/
def route (routes : List Route) (path : String) : Bool × String :=
  match routes with
  | [] => (false, path)
  | r :: rest =>
    match r.tryMatch path with
    | some p => (r.redirect, collapseTrailingSlashes p)
    | none => route rest path

/-! ## Node path normalization

`static.ts` joins candidate paths onto the root with Node's `path.join`,
and `index.ts` resolves listing targets with `path.resolve('.' + path)`.
Both normalize: empty and `.` segments are dropped, `..` pops the previous
segment (a leading `..` of a relative path is kept), and runs of slashes
collapse.  `join` preserves a trailing slash, `resolve` drops it.  Absolute
resolution against the current working directory is modelled relative to
the server root, which is how the filesystem collaborator is queried. -/

/-- Segment normalization shared by `pathJoin` and `resolveRel`. -/
def normSegs (segs : List String) : List String :=
  segs.foldl
    (fun st s =>
      if s = "" ∨ s = "." then st
      else if s = ".." then
        match st.getLast? with
        | some last => if last = ".." then st ++ [s] else st.dropLast
        | none => st ++ [s]
      else st ++ [s])
    []

/-- Node `path.normalize` on a relative path (trailing slash preserved). -/
def normalizeRel (p : String) : String :=
  let segs := normSegs (splitChar '/' p)
  let core := joinSep '/' segs
  if core = "" then "."
  else if jsEndsWith p "/" then core ++ "/"
  else core

/-- Node `path.join(a, b)` for the relative paths used by the resolver. -/
def pathJoin (a b : String) : String :=
  normalizeRel (a ++ "/" ++ b)

/-- Node `path.resolve` of a path relative to the working directory,
modelled relative to the server root (trailing slash dropped). -/
def resolveRel (p : String) : String :=
  let segs := normSegs (splitChar '/' p)
  let core := joinSep '/' segs
  if core = "" then "." else core

/-! ## Data model: filesystem, options, response -/

/-- The slice of `fs.Stats` the core reads. -/
structure Stats where
  isDirectory : Bool
  size : Nat
  ctime : Nat
  mtime : Nat
deriving DecidableEq

/-- The filesystem collaborator: `fs.existsSync`, `fs.statSync` and
`fs.promises.readdir` as queried by the core (synchronous view; the race
between stat and stream open is outside the model). -/
structure Fs where
  existsSync : String → Bool
  statSync : String → Stats
  readdir : String → List String

/-- The `dotfiles` static option. -/
inductive Dotfiles where
  | allow
  | ignore
  | deny
deriving DecidableEq

/-- `StaticOptions` of `src/static.ts` (defaults as in the source; `false`
option values are `none`). -/
structure StaticOptions where
  fallthroughOpt : Bool := true
  dotfiles : Dotfiles := .ignore
  etag : Bool := true
  extensions : Option (List String) := none
  index : Option String := some "index.html"
  maxAge : Nat := 0
  redirect : Bool := true
deriving DecidableEq

/-- A directory-listing entry (`flist` element of `fileHandler`): the name
carries a trailing `/` for directories. -/
structure DirEnt where
  name : String
  size : Nat
  ctime : Nat
  mtime : Nat
deriving DecidableEq

/-- A response body.  String bodies are modelled verbatim.  Directory
listings keep the negotiated representation key and the entry list; the
rendering of a listing to HTML/JSON/text (locale dates, human-readable
sizes) is presentation and is not modelled, no statement below inspects
it.  `stream pathOnDisk` is a file streamed from disk. -/
inductive Body where
  | empty
  | str (s : String)
  | stream (pathOnDisk : String)
  | listing (fmt : String) (entries : List DirEnt)
deriving DecidableEq

/-- Mutable response state while headers are being accumulated.  Header
names are stored lowercased (Node header access is case-insensitive). -/
structure RespState where
  status : Nat
  headers : List (String × String)
deriving DecidableEq

/-- Node `res.setHeader`: replaces any previous header of the same name. -/
def RespState.setHeader (st : RespState) (n v : String) : RespState :=
  { st with headers := st.headers.filter (fun h => h.1 ≠ n) ++ [(n, v)] }

/-- `resp.status(code)` of `src/index.ts`. -/
def RespState.setStatus (st : RespState) (c : Nat) : RespState :=
  { st with status := c }

/-- `resp.cacheControl(maxAge)` of `src/index.ts`. -/
def RespState.cacheControl (st : RespState) (maxAge : Nat) : RespState :=
  st.setHeader "cache-control" ("public, max-age=" ++ toString maxAge)

/-- `resp.typeLen(type, len)` of `src/index.ts`. -/
def RespState.typeLen (st : RespState) (type : String) (len : Nat) : RespState :=
  (st.setHeader "content-type" type).setHeader "content-length" (toString len)

/-- A finalized response: status, headers and body as handed to the HTTP
layer. -/
structure Resp where
  status : Nat
  headers : List (String × String)
  body : Body
deriving DecidableEq

instance : Inhabited Resp := ⟨⟨200, [], .empty⟩⟩

/-- `resp.send(type, body)` of `src/index.ts`: set Content-Type and
Content-Length, then end with the body. -/
def sendResp (st : RespState) (type body : String) : Resp :=
  let st := st.typeLen type (strLen body)
  { status := st.status, headers := st.headers, body := .str body }

/-- `resp.redirect(location)` of `src/index.ts`:
`writeHead(302, {location}).end()`. -/
def redirectResp (st : RespState) (loc : String) : Resp :=
  { status := 302, headers := (st.setHeader "location" loc).headers, body := .empty }

/-- Does this response serve a directory listing? -/
def Resp.isListing : Resp → Bool
  | { body := .listing _ _, .. } => true
  | _ => false

/-- The response state at the start of `genHandler`: default status 200 and
the `X-Powered-By` header set by the server callback. -/
def initState : RespState :=
  { status := 200, headers := [("x-powered-by", "urobbyu/serve")] }

/-- The external collaborators and configuration shared by all handlers:
the filesystem, the `accepts` negotiator (returns the chosen key among the
offered ones, or `none`), the `etag` fingerprint function, the MIME lookup,
the error/not-found/forbidden page contents, the bundled favicon asset, and
the static options (the CLI wires the same `maxAge` into the static options
and the handlers). -/
structure Cfg where
  fs : Fs
  acceptType : List String → Option String
  etagOf : Stats → String
  mimeLookup : String → String
  notFoundPage : String
  forbiddenPage : String
  errorPage : String
  assetsFavicon : Bool
  faviconStats : Stats
  faviconPath : String
  opts : StaticOptions

/-! ## The static resolver (`src/static.ts`) -/

/-- Outcome of the static request handler: a finalized response (`done`),
or control handed to `next` — without argument after a caught `StaticError`
when `fallthrough` is on (the response status is set to the error code
first), or with the error (`nextErr`) when `fallthrough` is off. -/
inductive StaticOutcome where
  | done (r : Resp)
  | next (code : Nat)
  | nextErr (code : Nat)
deriving DecidableEq

/-- The `catch` clause of the static handler applied to a `StaticError`. -/
def errOutcome (fallthroughOpt : Bool) (code : Nat) : StaticOutcome :=
  if fallthroughOpt then .next code else .nextErr code

/-- The success path of the inner `resp` helper of `src/static.ts`, after
the existence check, on the root-joined path `jp`: set Cache-Control,
Content-Type and Content-Length from the stats; then, when the `etag`
option is on, set the ETag header and short-circuit with an empty-bodied
304 when the client's If-None-Match equals the computed token, otherwise
stream the file. -/
def respServe (cfg : Cfg) (inm : Option String) (st : RespState) (jp : String) : Resp :=
  let stats := cfg.fs.statSync jp
  let st := (st.cacheControl cfg.opts.maxAge).typeLen (cfg.mimeLookup jp) stats.size
  if cfg.opts.etag then
    let st2 := st.setHeader "etag" (cfg.etagOf stats)
    if inm = some (cfg.etagOf stats) then
      { status := 304, headers := st2.headers, body := .empty }
    else
      { status := st2.status, headers := st2.headers, body := .stream jp }
  else
    { status := st.status, headers := st.headers, body := .stream jp }

/-- The inner `resp` helper of `src/static.ts`: join the candidate onto the
root, then check existence — via `isFileFound`, which joins the root again —
and either serve (`some`) or report the candidate missing (`none`). -/
def respFn (cfg : Cfg) (root : String) (inm : Option String) (st : RespState)
    (path : String) : Option Resp :=
  let jp := pathJoin root path
  if cfg.fs.existsSync (pathJoin root jp) then some (respServe cfg inm st jp) else none

/-- The extension-fallback loop of `src/static.ts`
(`for (const ext of EXTENSIONS) if (resp(path.ext)) return`), ending in the
`StaticError(404)` throw when no candidate responds. -/
def extLoop (cfg : Cfg) (root : String) (inm : Option String) (st : RespState)
    (path : String) : List String → StaticOutcome
  | [] => errOutcome cfg.opts.fallthroughOpt 404
  | e :: rest =>
    match respFn cfg root inm st (path ++ "." ++ e) with
    | some r => .done r
    | none => extLoop cfg root inm st path rest

/-- The resolution body of the static handler of `src/static.ts`, after the
dotfile check: exact-path existence, trailing-slash append for directories
(`redirect` option), index-file substitution, the `resp` attempt, the
extension fallback, and the final `StaticError(404)`. -/
def staticCore (cfg : Cfg) (root : String) (inm : Option String) (st : RespState)
    (path : String) : StaticOutcome :=
  if cfg.fs.existsSync (pathJoin root path) then
    let dir0 := (cfg.fs.statSync (pathJoin root path)).isDirectory
    let path1 :=
      if dir0 ∧ cfg.opts.redirect = true ∧ jsEndsWith path "/" = false
      then path ++ "/" else path
    let pd :=
      match dir0, cfg.opts.index with
      | true, some ix =>
        let newPath := path1 ++ ix
        let p := if cfg.fs.existsSync (pathJoin root newPath) then newPath else path1
        (p, (cfg.fs.statSync (pathJoin root p)).isDirectory)
      | _, _ => (path1, dir0)
    if pd.2 = false then
      match respFn cfg root inm st pd.1 with
      | some r => .done r
      | none => errOutcome cfg.opts.fallthroughOpt 404
    else errOutcome cfg.opts.fallthroughOpt 404
  else
    match cfg.opts.extensions with
    | some exts => extLoop cfg root inm st path exts
    | none => errOutcome cfg.opts.fallthroughOpt 404

/-- The static request handler of `src/static.ts` on a request URL: prefix
the URL with `.`, apply the dotfile policy before any filesystem access
(`deny` throws `StaticError(403)`, `ignore` throws `StaticError(404)`,
`allow` continues), then resolve. -/
def staticHandler (cfg : Cfg) (root : String) (st : RespState) (inm : Option String)
    (url : String) : StaticOutcome :=
  let path := "." ++ url
  if jsIncludes path "/." then
    if cfg.opts.dotfiles = .deny then errOutcome cfg.opts.fallthroughOpt 403
    else if cfg.opts.dotfiles = .ignore then errOutcome cfg.opts.fallthroughOpt 404
    else staticCore cfg root inm st path
  else staticCore cfg root inm st path

/-! ## Content negotiation and the orchestration handlers (`src/index.ts`) -/

/-- JS `url.split('?')[0]` (`getPath` of `src/index.ts`). -/
def getPath (url : String) : String :=
  String.mk (url.data.takeWhile (fun c => c ≠ '?'))

/-- JS `url.split('?').splice(1).join('?')`: everything after the first
`?` (joining the remaining fragments with `?` restores interior question
marks), or `""` when the URL has no query. -/
def queryTail (url : String) : String :=
  String.mk ((url.data.dropWhile (fun c => c ≠ '?')).drop 1)

/-- Render a list of keys as a JSON string array (`JSON.stringify` on the
offered representation keys, which never need escaping). -/
def jsonStrArr (l : List String) : String :=
  "[" ++ joinSep ',' (l.map (fun s => "\"" ++ s ++ "\"")) ++ "]"

/-- The body built by `resp.format` of `src/index.ts` when no offered type
is acceptable. -/
def unsupportedBody (types : List String) : String :=
  "\x7b\"code\":\"UnsupportedType\",\"message\":\"Only attached content types are supported.\",\"types\":"
    ++ jsonStrArr types ++ "\x7d"

/-- `resp.format(map)` of `src/index.ts`: offer the map's keys to the
`accepts` collaborator; on failure answer 406 with the machine-readable
JSON body, otherwise run the branch of the chosen key.  Branches are the
finalized responses the source closures produce.  (The `accepts` library
only ever returns an offered key, so the missing-branch fallback is
unreachable; it is kept total here.) -/
def formatResp (accept : List String → Option String) (st : RespState)
    (branches : List (String × Resp)) : Resp :=
  match accept (branches.map Prod.fst) with
  | none => sendResp (st.setStatus 406) "application/json"
      (unsupportedBody (branches.map Prod.fst))
  | some k =>
    match branches.find? (fun b => b.1 = k) with
    | some b => b.2
    | none => { status := st.status, headers := st.headers, body := .empty }

/-- `notFoundHandler` of `src/index.ts`: Cache-Control, status 404, and the
negotiated not-found representation. -/
def notFoundResp (accept : List String → Option String) (maxAge : Nat)
    (page : String) : Resp :=
  let st := (initState.cacheControl maxAge).setStatus 404
  formatResp accept st
    [("html", sendResp st "text/html" page),
     ("json", sendResp st "application/json" "\x7b\"error\":\"Not Found\"\x7d"),
     ("text", sendResp st "text/plain" "Not Found")]

/-- `forbiddenHandler` of `src/index.ts`. -/
def forbiddenResp (accept : List String → Option String) (maxAge : Nat)
    (page : String) : Resp :=
  let st := (initState.cacheControl maxAge).setStatus 403
  formatResp accept st
    [("html", sendResp st "text/html" page),
     ("json", sendResp st "application/json" "\x7b\"error\":\"Forbidden\"\x7d"),
     ("text", sendResp st "text/plain" "Forbidden")]

/-- `errorHandler` of `src/index.ts` (the response part; terminal logging
is presentation). -/
def errorResp (accept : List String → Option String) (maxAge : Nat)
    (page : String) : Resp :=
  let st := (initState.cacheControl maxAge).setStatus 500
  formatResp accept st
    [("html", sendResp st "text/html" page),
     ("json", sendResp st "application/json" "\x7b\"error\":\"Internal Server Error\"\x7d"),
     ("text", sendResp st "text/plain" "Internal Server Error")]

/-- A listing-branch response: the source closures `res.send` a rendered
string; the rendering is abstracted to the representation key and the entry
list (the Content-Length of the rendered text is not modelled). -/
def listingResp (st : RespState) (ctype fmt : String) (entries : List DirEnt) : Resp :=
  { status := st.status, headers := (st.setHeader "content-type" ctype).headers,
    body := .listing fmt entries }

/-- The directory-listing block of `fileHandler` in `src/index.ts`: read
the directory, drop dotfile entries, stat each entry (directories gain a
trailing slash on their name), and negotiate the representation. -/
def dirListing (cfg : Cfg) (fpath : String) : Resp :=
  let plist := (cfg.fs.readdir fpath).filter (fun p => jsStartsWith p "." = false)
  let flist := plist.map (fun f =>
    let s := cfg.fs.statSync (pathJoin fpath f)
    { name := f ++ (if s.isDirectory then "/" else ""),
      size := s.size, ctime := s.ctime, mtime := s.mtime : DirEnt })
  let st := initState
  formatResp cfg.acceptType st
    [("html", listingResp st "text/html" "html" flist),
     ("json", listingResp st "application/json" "json" flist),
     ("text", listingResp st "text/plain" "text" flist)]

/-- The favicon special case of `fileHandler`: serve the bundled asset with
Cache-Control, `image/x-icon` type, and the conditional ETag check. -/
def faviconResp (cfg : Cfg) (inm : Option String) : Resp :=
  let stats := cfg.faviconStats
  let st := (initState.cacheControl cfg.opts.maxAge).typeLen "image/x-icon" stats.size
  if cfg.opts.etag then
    let st2 := st.setHeader "etag" (cfg.etagOf stats)
    if inm = some (cfg.etagOf stats) then
      { status := 304, headers := st2.headers, body := .empty }
    else
      { status := st2.status, headers := st2.headers, body := .stream cfg.faviconPath }
  else
    { status := st.status, headers := st.headers, body := .stream cfg.faviconPath }

/-- `fileHandler` of `src/index.ts`: a 403 status from the fallthrough goes
to the forbidden handler; a 404 status is reset to 200 (the subsequent
status-range throw guards an unsatisfiable condition `< 200 && >= 300`);
then the favicon special case, then the directory listing for an existing
path that ends in `/` and has no dotted segment, else the not-found
handler. -/
def fileHandler (cfg : Cfg) (status : Nat) (url : String) (inm : Option String) : Resp :=
  if status = 403 then forbiddenResp cfg.acceptType cfg.opts.maxAge cfg.forbiddenPage
  else
    let path := getPath url
    if path = "/favicon.ico" ∧ cfg.assetsFavicon = true then faviconResp cfg inm
    else
      let fpath := resolveRel ("." ++ path)
      if jsEndsWith path "/" = true ∧ jsIncludes path "/." = false
          ∧ cfg.fs.existsSync fpath = true then
        dirListing cfg fpath
      else notFoundResp cfg.acceptType cfg.opts.maxAge cfg.notFoundPage

/-- The continuation `nx` passed to the static handler by `genHandler`:
a finalized response passes through, a plain `next()` goes to
`fileHandler` with the status the fallthrough set, and `next(err)` goes to
the error handler. -/
def staticThenNext (cfg : Cfg) (inm : Option String) (newUrl : String) : Resp :=
  match staticHandler cfg "./" initState inm newUrl with
  | .done r => r
  | .next code => fileHandler cfg code newUrl inm
  | .nextErr _ => errorResp cfg.acceptType cfg.opts.maxAge cfg.errorPage

/-- `genHandler` of `src/index.ts`: non-GET methods answer not-found at
once; a raw path starting with `//` (the reserved directory-listing marker)
goes straight to `fileHandler`; otherwise the route engine runs on the
path, the URL is rebuilt as the routed path concatenated with the query
fragments joined without their leading `?`, a route redirect answers 302,
and the static resolver takes over. -/
def genHandler (routes : List Route) (cfg : Cfg) (method url : String)
    (inm : Option String) : Resp :=
  let reqPath := getPath url
  if method ≠ "GET" then notFoundResp cfg.acceptType cfg.opts.maxAge cfg.notFoundPage
  else if jsStartsWith reqPath "//" then fileHandler cfg 200 url inm
  else
    let rp := route routes reqPath
    let newUrl := rp.2 ++ queryTail url
    if rp.1 then redirectResp initState newUrl
    else staticThenNext cfg inm newUrl

/-! ## Observation helpers -/

/-- The HTTP status an outcome drives the pipeline toward (the code of a
policy error, or 500 for the error-handler path). -/
def StaticOutcome.statusCode : StaticOutcome → Nat
  | .done r => r.status
  | .next code => code
  | .nextErr _ => 500

/-- The on-disk path a static outcome streams, if any. -/
def StaticOutcome.servedPath : StaticOutcome → Option String
  | .done { body := .stream p, .. } => some p
  | _ => none

/-! ## Sample collaborators for concrete evaluations

A small filesystem with a directory `d` containing `index.html`, and an
`accepts` collaborator that picks the first offered key (a client sending
`Accept: */*`). -/

/-- Stats of a directory entry. -/
def dirStats : Stats := { isDirectory := true, size := 0, ctime := 0, mtime := 0 }

/-- Stats of a small regular file. -/
def fileStats : Stats := { isDirectory := false, size := 5, ctime := 1, mtime := 2 }

/-- `d` is a directory holding `index.html`. -/
def sampleFs : Fs where
  existsSync := fun p => p == "d" || p == "d/" || p == "d/index.html"
  statSync := fun p => if p == "d" || p == "d/" then dirStats else fileStats
  readdir := fun _ => ["index.html"]

/-- Default options, `sampleFs`, first-offered-key negotiation, and a
size-keyed fingerprint collaborator. -/
def sampleCfg : Cfg where
  fs := sampleFs
  acceptType := fun keys => keys.head?
  etagOf := fun s => "tag-" ++ toString s.size
  mimeLookup := fun _ => "application/octet-stream"
  notFoundPage := "NF"
  forbiddenPage := "FB"
  errorPage := "ER"
  assetsFavicon := false
  faviconStats := fileStats
  faviconPath := "favicon-asset"
  opts := {}

/-- `sampleCfg` with the `deny` dotfile policy. -/
def cfgDeny : Cfg := { sampleCfg with opts := { dotfiles := .deny } }

/-- Extension fallback `[json, html]` over a filesystem where `page` is
absent, `page.json` exists as a directory and `page.html` as a file. -/
def cfgExtDir : Cfg :=
  { sampleCfg with
    fs :=
      { existsSync := fun p => p == "page.json" || p == "page.html"
        statSync := fun p => if p == "page.json" then dirStats else fileStats
        readdir := fun _ => [] }
    opts := { extensions := some ["json", "html"] } }

/-- Extension fallback `[json, html]` over a filesystem where `page` is
absent and both `page.json` and `page.html` exist as files. -/
def cfgExtFiles : Cfg :=
  { sampleCfg with
    fs :=
      { existsSync := fun p => p == "page.json" || p == "page.html"
        statSync := fun _ => fileStats
        readdir := fun _ => [] }
    opts := { extensions := some ["json", "html"] } }

/-! ## Header bookkeeping lemmas -/

/-- A header just set is present. -/
theorem mem_setHeader_self (st : RespState) (n v : String) :
    (n, v) ∈ (st.setHeader n v).headers := by
  simp [RespState.setHeader]

/-- Setting a differently named header preserves an existing one. -/
theorem mem_setHeader_of_ne (st : RespState) (n v : String)
    {h : String × String} (hm : h ∈ st.headers) (hne : h.1 ≠ n) :
    h ∈ (st.setHeader n v).headers := by
  simp [RespState.setHeader, List.mem_filter, hm, hne]

/-- When negotiation succeeds and every branch keeps the current status,
`formatResp` answers with that status. -/
theorem formatResp_status_of_branches
    (accept : List String → Option String) (st : RespState)
    (branches : List (String × Resp))
    (hst : ∀ b ∈ branches, (Prod.snd b).status = st.status)
    (hacc : accept (branches.map Prod.fst) ≠ none) :
    (formatResp accept st branches).status = st.status := by
  unfold formatResp
  rcases hv : accept (branches.map Prod.fst) with _ | k
  · exact absurd hv hacc
  · rcases hf : branches.find? (fun b => b.1 = k) with _ | b
    · simp only [hf]
    · simp only [hf]
      exact hst b (List.mem_of_find?_eq_some hf)

/-! ## C1: first matching rule wins -/

/-- C1: For every route table and every request path, the route engine
tries the rules in file order and returns the outcome (redirect flag and
substituted path, with trailing slashes collapsed) of the first rule whose
requirement matches, regardless of any later rules; if no rule matches,
the returned path equals the input path unchanged and the redirect flag is
false. -/
theorem route_first_match_wins :
    (∀ (pre post : List Route) (r : Route) (path p : String),
        (∀ r' ∈ pre, r'.tryMatch path = none) → r.tryMatch path = some p →
        route (pre ++ r :: post) path = (r.redirect, collapseTrailingSlashes p))
    ∧ (∀ (rs : List Route) (path : String),
        (∀ r' ∈ rs, r'.tryMatch path = none) → route rs path = (false, path)) := by
  constructor
  · intro pre post r path p hpre hr
    induction pre with
    | nil => simp [route, hr]
    | cons a as ih =>
      have ha : a.tryMatch path = none := hpre a (List.mem_cons_self _ _)
      simp only [List.cons_append, route, ha]
      exact ih (fun r' h => hpre r' (List.mem_cons_of_mem _ h))
  · intro rs path h
    induction rs with
    | nil => rfl
    | cons a as ih =>
      have ha : a.tryMatch path = none := h a (List.mem_cons_self _ _)
      simp only [route, ha]
      exact ih (fun r' hm => h r' (List.mem_cons_of_mem _ hm))

/-- C1 witness: a later rule that also matches `/old/x` but rewrites
differently is ignored in favour of the first matching rule, and an
unmatched path passes through unchanged. -/
theorem route_first_match_wins_instance :
    route [mkRoute "" "/zz/" ":" "/q/", mkRoute "" "/old/" ">" "/new/",
        mkRoute "" "/old/" ":" "/other/"] "/old/x" = (true, "/new/x")
    ∧ route [mkRoute "" "/zz/" ":" "/q/"] "/nomatch" = (false, "/nomatch") := by
  constructor
  · have h := route_first_match_wins.1 [mkRoute "" "/zz/" ":" "/q/"]
      [mkRoute "" "/old/" ":" "/other/"] (mkRoute "" "/old/" ">" "/new/")
      "/old/x" "/new/x" (by decide) (by decide)
    exact h.trans (by decide)
  · exact route_first_match_wins.2 _ _ (by decide)

/-! ## C2: `&&` is a case-sensitive qualifier, unlike `&` -/

/-- C2 counterexample: the claim says a rule qualified with `&&` behaves
identically to the `&`-qualified rule and matches `/API/foo` against the
requirement `/api/`.  In the code the `i` regex flag is added only when
the qualifier is exactly `&`, so the `&&` rule rejects `/API/foo` while
the `&` rule accepts it. -/
theorem doubleAmp_not_case_insensitive :
    (mkRoute "&&" "/api/" ":" "/v2/").tryMatch "/API/foo" = none
    ∧ (mkRoute "&" "/api/" ":" "/v2/").tryMatch "/API/foo" = some "/v2//foo" := by
  decide

/-- C2 amended: a rule qualified with `&&` compiles to a case-sensitive
anchored regex — it matches exactly the paths whose prefix equals the
requirement minus its trailing slash, character for character — while a
single `&` adds the `i` flag and matches prefixes up to letter case; the
matched prefix is replaced by the rule's replacement text. -/
theorem doubleAmp_case_sensitive_anchor :
    ∀ (req op res p : String),
      ((jsStartsWith p (jsDropRight req 1) = true →
          (mkRoute "&&" req op res).tryMatch p
            = some (res ++ jsDrop p (strLen (jsDropRight req 1))))
        ∧ (jsStartsWith p (jsDropRight req 1) = false →
          (mkRoute "&&" req op res).tryMatch p = none))
      ∧ ((jsStartsWith (lowerStr p) (lowerStr (jsDropRight req 1)) = true →
          (mkRoute "&" req op res).tryMatch p
            = some (res ++ jsDrop p (strLen (jsDropRight req 1))))
        ∧ (jsStartsWith (lowerStr p) (lowerStr (jsDropRight req 1)) = false →
          (mkRoute "&" req op res).tryMatch p = none)) := by
  intro req op res p
  refine ⟨⟨?_, ?_⟩, ⟨?_, ?_⟩⟩ <;> intro h <;> simp [mkRoute, regexTryLit, h]

/-- C2 witness: the `&&` rule for `/api/` accepts the exact-case path
`/api/zz` and rejects the case-flipped path `/API/zz`. -/
theorem doubleAmp_case_sensitive_anchor_instance :
    (mkRoute "&&" "/api/" ":" "/v2/").tryMatch "/api/zz" = some "/v2//zz"
    ∧ (mkRoute "&&" "/api/" ":" "/v2/").tryMatch "/API/zz" = none := by
  constructor
  · have h := ((doubleAmp_case_sensitive_anchor "/api/" ":" "/v2/" "/api/zz").1).1
      (by decide)
    exact h.trans (by decide)
  · exact ((doubleAmp_case_sensitive_anchor "/api/" ":" "/v2/" "/API/zz").1).2
      (by decide)

/-! ## C3: dotfile policy precedes any filesystem access -/

/-- C3: whenever the candidate path contains a dotted segment (the
source's `path.includes('/.')` test on `'.' + url`), the static resolver
applies the dotfile policy before any filesystem existence check — the
statement holds for every filesystem: under `deny` it fails with a 403
`StaticError` (which the fallthrough continuation turns into the
negotiated Forbidden response), under `ignore` with a 404 `StaticError`,
and under `allow` resolution continues normally with the core resolution
body. -/
theorem dotfile_policy_precedes_fs :
    ∀ (cfg : Cfg) (root : String) (st : RespState) (inm : Option String) (url : String),
      jsIncludes ("." ++ url) "/." = true →
      (cfg.opts.dotfiles = .deny →
          staticHandler cfg root st inm url = errOutcome cfg.opts.fallthroughOpt 403
          ∧ (cfg.opts.fallthroughOpt = true →
              staticThenNext cfg inm url
                = forbiddenResp cfg.acceptType cfg.opts.maxAge cfg.forbiddenPage))
      ∧ (cfg.opts.dotfiles = .ignore →
          staticHandler cfg root st inm url = errOutcome cfg.opts.fallthroughOpt 404)
      ∧ (cfg.opts.dotfiles = .allow →
          staticHandler cfg root st inm url = staticCore cfg root inm st ("." ++ url)) := by
  intro cfg root st inm url h
  refine ⟨fun hd => ⟨?_, fun hf => ?_⟩, fun hd => ?_, fun hd => ?_⟩ <;>
    simp [staticHandler, staticThenNext, errOutcome, fileHandler, h, hd]
  · simp [hf]

/-- C3 witness: with the `deny` policy the nonexistent path `/.secret`
still produces a 403 fallthrough (not a 404), and the pipeline answers
with the Forbidden page. -/
theorem dotfile_policy_precedes_fs_instance :
    cfgDeny.fs.existsSync (pathJoin "./" "./.secret") = false
    ∧ staticHandler cfgDeny "./" initState none "/.secret" = .next 403
    ∧ staticThenNext cfgDeny none "/.secret"
        = forbiddenResp cfgDeny.acceptType cfgDeny.opts.maxAge cfgDeny.forbiddenPage := by
  have h := (dotfile_policy_precedes_fs cfgDeny "./" initState none "/.secret"
    (by decide)).1 (by decide)
  exact ⟨by decide, (h.1).trans (by decide), h.2 (by decide)⟩

/-! ## C4: existing directory without trailing slash: no redirect is signalled -/

/-- C4 counterexample: `/d` resolves to the existing directory `d` while
`options.redirect` is true (the default) and the path lacks a trailing
slash; the claim requires a client-visible 302 to `/d/`, but the static
resolver instead serves the directory's index file directly under the
slash-less path with status 200. -/
theorem dir_no_redirect_signal :
    sampleCfg.opts.redirect = true
    ∧ (staticHandler sampleCfg "./" initState none "/d").statusCode = 200
    ∧ ¬ (staticHandler sampleCfg "./" initState none "/d").statusCode = 302
    ∧ (staticHandler sampleCfg "./" initState none "/d").servedPath
        = some "d/index.html" := by
  decide

/-- C4 amended: when `options.redirect` is true and the request path lacks
a trailing slash but denotes an existing directory, the resolver only
appends a trailing slash to its internal candidate path — so the
configured index file is looked up as if the path ended with `/` and, when
present as a file, is served directly; no redirect is signalled (the
outcome's status is the one `resp` produces, never 302). -/
theorem dir_slash_appended_internally :
    ∀ (cfg : Cfg) (url ix : String) (inm : Option String),
      cfg.opts.redirect = true →
      cfg.opts.index = some ix →
      jsIncludes ("." ++ url) "/." = false →
      jsEndsWith ("." ++ url) "/" = false →
      cfg.fs.existsSync (pathJoin "./" ("." ++ url)) = true →
      (cfg.fs.statSync (pathJoin "./" ("." ++ url))).isDirectory = true →
      cfg.fs.existsSync (pathJoin "./" ("." ++ url ++ "/" ++ ix)) = true →
      (cfg.fs.statSync (pathJoin "./" ("." ++ url ++ "/" ++ ix))).isDirectory = false →
      cfg.fs.existsSync (pathJoin "./" (pathJoin "./" ("." ++ url ++ "/" ++ ix))) = true →
      staticHandler cfg "./" initState inm url
        = .done (respServe cfg inm initState (pathJoin "./" ("." ++ url ++ "/" ++ ix)))
      ∧ (staticHandler cfg "./" initState inm url).statusCode ≠ 302 := by
  intro cfg url ix inm hredir hix hdot hslash hex hdir hexi hdiri hexi2
  simp only [String.append_assoc] at hexi hdiri hexi2
  have key : staticHandler cfg "./" initState inm url
      = .done (respServe cfg inm initState (pathJoin "./" ("." ++ url ++ "/" ++ ix))) := by
    simp only [staticHandler, hdot, Bool.false_eq_true, if_false]
    simp only [staticCore, hex, if_true, hdir, hredir, hslash, hix]
    simp only [Bool.false_eq_true, not_false_eq_true, and_self, if_true,
      String.append_assoc, hexi, hdiri]
    simp [respFn, hexi2]
  refine ⟨key, ?_⟩
  rw [key]
  simp only [StaticOutcome.statusCode, respServe]
  by_cases he : cfg.opts.etag <;>
    by_cases hm : inm = some (cfg.etagOf (cfg.fs.statSync
      (pathJoin "./" ("." ++ url ++ "/" ++ ix)))) <;>
  simp [he, hm, RespState.typeLen, RespState.setHeader, RespState.cacheControl, initState]

/-- C4 witness: for `sampleCfg` and `/d`, the resolver serves
`d/index.html` outright. -/
theorem dir_slash_appended_internally_instance :
    staticHandler sampleCfg "./" initState none "/d"
      = .done (respServe sampleCfg none initState "d/index.html") := by
  have h := (dir_slash_appended_internally sampleCfg "/d" "index.html" none
    (by decide) (by decide) (by decide) (by decide) (by decide) (by decide)
    (by decide) (by decide) (by decide)).1
  exact h.trans (by decide)

/-! ## C5: conditional requests -/

/-- C5: with the `etag` option enabled, the conditional check of `resp` /
`matchEtag` succeeds exactly when the client's If-None-Match header
string-equals the computed ETag token.  On a match the response is 304
with an empty body while the ETag header, the Cache-Control header, and
every previously set header of an untouched name remain set; on a
mismatch or an absent header the full file body is streamed. -/
theorem etag_conditional_304 :
    ∀ (cfg : Cfg) (inm : Option String) (st : RespState) (jp : String),
      cfg.opts.etag = true →
      ((inm = some (cfg.etagOf (cfg.fs.statSync jp)) →
          (respServe cfg inm st jp).status = 304
          ∧ (respServe cfg inm st jp).body = .empty
          ∧ ("etag", cfg.etagOf (cfg.fs.statSync jp)) ∈ (respServe cfg inm st jp).headers
          ∧ ("cache-control", "public, max-age=" ++ toString cfg.opts.maxAge)
              ∈ (respServe cfg inm st jp).headers
          ∧ (∀ h ∈ st.headers,
              h.1 ≠ "cache-control" → h.1 ≠ "content-type" →
              h.1 ≠ "content-length" → h.1 ≠ "etag" →
              h ∈ (respServe cfg inm st jp).headers))
        ∧ (inm ≠ some (cfg.etagOf (cfg.fs.statSync jp)) →
          (respServe cfg inm st jp).body = .stream jp
          ∧ (respServe cfg inm st jp).status = st.status)) := by
  intro cfg inm st jp hetag
  constructor
  · intro hm
    have hr : respServe cfg inm st jp
        = { status := 304,
            headers := ((((st.cacheControl cfg.opts.maxAge).typeLen (cfg.mimeLookup jp)
              (cfg.fs.statSync jp).size)).setHeader "etag"
              (cfg.etagOf (cfg.fs.statSync jp))).headers,
            body := .empty } := by
      simp [respServe, hetag, hm]
    refine ⟨by rw [hr], by rw [hr], ?_, ?_, ?_⟩
    · rw [hr]
      exact mem_setHeader_self _ _ _
    · rw [hr]
      refine mem_setHeader_of_ne _ _ _ (mem_setHeader_of_ne _ _ _
        (mem_setHeader_of_ne _ _ _ (mem_setHeader_self _ _ _) ?_) ?_) ?_ <;> simp
    · intro h hm' h1 h2 h3 h4
      rw [hr]
      exact mem_setHeader_of_ne _ _ _ (mem_setHeader_of_ne _ _ _
        (mem_setHeader_of_ne _ _ _ (mem_setHeader_of_ne _ _ _ hm' h1) h2) h3) h4
  · intro hm
    constructor <;> simp [respServe, hetag, hm, RespState.typeLen, RespState.setHeader,
      RespState.cacheControl]

/-- C5 witness: for `d/index.html` (fingerprint `tag-5`), a matching
If-None-Match yields a 304 with empty body, ETag and Cache-Control set,
while an absent header streams the file. -/
theorem etag_conditional_304_instance :
    (respServe sampleCfg (some "tag-5") initState "d/index.html").status = 304
    ∧ (respServe sampleCfg (some "tag-5") initState "d/index.html").body = .empty
    ∧ ("etag", "tag-5") ∈ (respServe sampleCfg (some "tag-5") initState "d/index.html").headers
    ∧ ("cache-control", "public, max-age=0")
        ∈ (respServe sampleCfg (some "tag-5") initState "d/index.html").headers
    ∧ (respServe sampleCfg none initState "d/index.html").body = .stream "d/index.html" := by
  have h1 := (etag_conditional_304 sampleCfg (some "tag-5") initState "d/index.html"
    (by decide)).1 (by decide)
  have h2 := (etag_conditional_304 sampleCfg none initState "d/index.html"
    (by decide)).2 (by decide)
  exact ⟨h1.1, h1.2.1, by decide, by decide, h2.1⟩

/-! ## C6: extension fallback order checks existence, not regular-file-ness -/

/-- C6 counterexample: with extensions `[json, html]`, `page` absent,
`page.json` an existing directory and `page.html` an existing file, the
claim requires the first candidate existing **as a file** — `page.html` —
to be served; the loop instead stops at `page.json`, whose existence
(not file-ness) satisfies `resp`. -/
theorem ext_fallback_serves_existing_dir :
    (cfgExtDir.fs.statSync "page.json").isDirectory = true
    ∧ cfgExtDir.fs.existsSync "page.html" = true
    ∧ (cfgExtDir.fs.statSync "page.html").isDirectory = false
    ∧ (staticHandler cfgExtDir "./" initState none "/page").servedPath = some "page.json"
    ∧ ¬ (staticHandler cfgExtDir "./" initState none "/page").servedPath
        = some "page.html" := by
  decide

/-- C6 amended: when the exact path does not exist and
`options.extensions` is a list, the resolver tries `<path>.<ext>` for each
extension in list order and serves the first candidate that **exists on
disk** (the check is bare existence, so a directory named like a candidate
is selected too); with both `page.json` and `page.html` present as files
and extensions `[json, html]`, resolving `page` still returns
`page.json`. -/
theorem ext_fallback_first_existing :
    (∀ (cfg : Cfg) (root : String) (inm : Option String) (st : RespState) (path : String)
        (pre post : List String) (e : String),
        (∀ e' ∈ pre,
          cfg.fs.existsSync (pathJoin root (pathJoin root (path ++ "." ++ e'))) = false) →
        cfg.fs.existsSync (pathJoin root (pathJoin root (path ++ "." ++ e))) = true →
        extLoop cfg root inm st path (pre ++ e :: post)
          = .done (respServe cfg inm st (pathJoin root (path ++ "." ++ e))))
    ∧ (∀ (cfg : Cfg) (root : String) (inm : Option String) (st : RespState) (path : String)
        (exts : List String),
        cfg.fs.existsSync (pathJoin root path) = false →
        cfg.opts.extensions = some exts →
        staticCore cfg root inm st path = extLoop cfg root inm st path exts) := by
  constructor
  · intro cfg root inm st path pre post e hpre he
    induction pre with
    | nil => simp [extLoop, respFn, he]
    | cons a as ih =>
      have ha := hpre a (List.mem_cons_self _ _)
      simp only [List.cons_append, extLoop, respFn, ha, Bool.false_eq_true, if_false]
      exact ih (fun e' h => hpre e' (List.mem_cons_of_mem _ h))
  · intro cfg root inm st path exts hex hopt
    simp [staticCore, hex, hopt]

/-- C6 witness: both `page.json` and `page.html` exist as files; `/page`
is served from `page.json`, honouring the configured order. -/
theorem ext_fallback_first_existing_instance :
    staticHandler cfgExtFiles "./" initState none "/page"
      = .done (respServe cfgExtFiles none initState "page.json") := by
  have h2 := ext_fallback_first_existing.2 cfgExtFiles "./" none initState "./page"
    ["json", "html"] (by decide) (by decide)
  have h1 := ext_fallback_first_existing.1 cfgExtFiles "./" none initState "./page"
    [] ["html"] "json" (by decide) (by decide)
  calc staticHandler cfgExtFiles "./" initState none "/page"
      = staticCore cfgExtFiles "./" none initState "./page" := by decide
    _ = extLoop cfgExtFiles "./" none initState "./page" ["json", "html"] := h2
    _ = .done (respServe cfgExtFiles none initState
          (pathJoin "./" ("./page" ++ "." ++ "json"))) := h1
    _ = .done (respServe cfgExtFiles none initState "page.json") := by decide

/-! ## C7: marker handling versus route order -/

/-- C7 counterexample: the claim says the reserved `//` marker is checked
on the path **rewritten by the route engine** and there disables index
substitution.  With a rule rewriting `/m` to the marker path `//d/`, the
request `/m` is not treated as a marker at all: the static resolver runs
on `//d/`, index substitution applies, and the directory's `index.html` is
streamed instead of a forced directory listing. -/
theorem marker_on_rewritten_path_ignored :
    (route [mkRoute "" "/m" ":" "//d/"] "/m").2 = "//d/"
    ∧ (genHandler [mkRoute "" "/m" ":" "//d/"] sampleCfg "GET" "/m" none).body
        = .stream "d/index.html"
    ∧ (genHandler [mkRoute "" "/m" ":" "//d/"] sampleCfg "GET" "/m" none).isListing
        = false := by
  decide

/-- C7 amended: for every GET request the reserved marker (a raw request
path beginning `//`) is checked first, on the original path and **before**
the route engine runs; such requests bypass the route engine and the
static resolver entirely (hence no index substitution) and go straight to
the directory-listing file handler.  For every other GET request the route
engine is applied before any filesystem handling: a route-driven redirect
answers 302 at once, touching neither the filesystem nor the static
resolver, and otherwise the static resolver takes over on the rewritten
URL. -/
theorem marker_checked_before_routing :
    (∀ (routes : List Route) (cfg : Cfg) (url : String) (inm : Option String),
        jsStartsWith (getPath url) "//" = true →
        genHandler routes cfg "GET" url inm = fileHandler cfg 200 url inm)
    ∧ (∀ (routes : List Route) (cfg : Cfg) (url : String) (inm : Option String),
        jsStartsWith (getPath url) "//" = false →
        (route routes (getPath url)).1 = true →
        genHandler routes cfg "GET" url inm
          = redirectResp initState ((route routes (getPath url)).2 ++ queryTail url))
    ∧ (∀ (routes : List Route) (cfg : Cfg) (url : String) (inm : Option String),
        jsStartsWith (getPath url) "//" = false →
        (route routes (getPath url)).1 = false →
        genHandler routes cfg "GET" url inm
          = staticThenNext cfg inm ((route routes (getPath url)).2 ++ queryTail url)) := by
  refine ⟨?_, ?_, ?_⟩
  · intro routes cfg url inm h
    simp [genHandler, h]
  · intro routes cfg url inm h h2
    simp [genHandler, h, h2]
  · intro routes cfg url inm h h2
    simp [genHandler, h, h2]

/-- C7 witness: a raw marker path reaches the file handler untouched even
though a rule matches it, and a matched redirect rule short-circuits with
a 302 whose location is the routed path with the query text appended. -/
theorem marker_checked_before_routing_instance :
    genHandler [mkRoute "" "//d/" ":" "/x/"] sampleCfg "GET" "//d/" none
      = fileHandler sampleCfg 200 "//d/" none
    ∧ genHandler [mkRoute "" "/old/" ">" "/new/"] sampleCfg "GET" "/old/x?a=1" none
      = redirectResp initState "/new/xa=1" := by
  constructor
  · exact marker_checked_before_routing.1 [mkRoute "" "//d/" ":" "/x/"] sampleCfg
      "//d/" none (by decide)
  · have h := marker_checked_before_routing.2.1 [mkRoute "" "/old/" ">" "/new/"]
      sampleCfg "/old/x?a=1" none (by decide) (by decide)
    exact h.trans (by decide)

/-! ## C8: unsupported negotiation -/

/-- C8: whenever the `accepts` collaborator finds no acceptable key among
the offered representation keys, `resp.format` answers 406 with the JSON
body `{code: "UnsupportedType", message, types}` whose `types` array is
exactly the list of offered keys, sent as `application/json`. -/
theorem negotiation_unsupported_406 :
    ∀ (accept : List String → Option String) (st : RespState)
      (branches : List (String × Resp)),
      accept (branches.map Prod.fst) = none →
      (formatResp accept st branches).status = 406
      ∧ (formatResp accept st branches).body
          = .str (unsupportedBody (branches.map Prod.fst))
      ∧ ("content-type", "application/json") ∈ (formatResp accept st branches).headers := by
  intro accept st branches h
  have hr : formatResp accept st branches
      = sendResp (st.setStatus 406) "application/json"
          (unsupportedBody (branches.map Prod.fst)) := by
    simp [formatResp, h]
  refine ⟨by rw [hr]; rfl, by rw [hr]; rfl, ?_⟩
  rw [hr]
  exact mem_setHeader_of_ne _ _ _ (mem_setHeader_self _ _ _) (by simp)

/-- C8 witness: offering only `html` to a client accepting nothing yields
the 406 body naming exactly `["html"]`. -/
theorem negotiation_unsupported_406_instance :
    (formatResp (fun _ => none) initState [("html", default)]).status = 406
    ∧ (formatResp (fun _ => none) initState [("html", default)]).body
        = .str (unsupportedBody ["html"]) := by
  have h := negotiation_unsupported_406 (fun _ => none) initState [("html", default)] rfl
  exact ⟨h.1, h.2.1⟩

/-! ## C9: non-GET requests answer not-found immediately -/

/-- C9: a request whose method is not GET is answered with the negotiated
Not Found representation immediately — the result is the not-found
response, it is unchanged under any replacement of the route table or the
filesystem, and its status is 404 whenever negotiation succeeds. -/
theorem non_get_immediate_404 :
    ∀ (routes : List Route) (cfg : Cfg) (method url : String) (inm : Option String),
      method ≠ "GET" →
      genHandler routes cfg method url inm
        = notFoundResp cfg.acceptType cfg.opts.maxAge cfg.notFoundPage
      ∧ (∀ (routes2 : List Route) (fs2 : Fs),
          genHandler routes2 { cfg with fs := fs2 } method url inm
            = genHandler routes cfg method url inm)
      ∧ (cfg.acceptType ["html", "json", "text"] ≠ none →
          (genHandler routes cfg method url inm).status = 404) := by
  intro routes cfg method url inm h
  have key : ∀ (rs : List Route) (c : Cfg), genHandler rs c method url inm
      = notFoundResp c.acceptType c.opts.maxAge c.notFoundPage := by
    intro rs c
    simp [genHandler, h]
  refine ⟨key routes cfg, fun routes2 fs2 => (key routes2 _).trans (key routes cfg).symm, ?_⟩
  intro hacc
  rw [key routes cfg]
  unfold notFoundResp
  refine formatResp_status_of_branches _ _ _ ?_ ?_
  · intro b hb
    simp only [List.mem_cons, List.mem_singleton, List.not_mem_nil, or_false] at hb
    rcases hb with hb | hb | hb <;> subst hb <;> rfl
  · exact hacc

/-- C9 witness: a POST for an existing directory listing path is answered
not-found with status 404, without consulting routes or the filesystem. -/
theorem non_get_immediate_404_instance :
    genHandler [] sampleCfg "POST" "/d/" none
      = notFoundResp sampleCfg.acceptType sampleCfg.opts.maxAge sampleCfg.notFoundPage
    ∧ (genHandler [] sampleCfg "POST" "/d/" none).status = 404 := by
  have h := non_get_immediate_404 [] sampleCfg "POST" "/d/" none (by decide)
  exact ⟨h.1, h.2.2 (by decide)⟩

/-! ## C10: the query string is concatenated without its separator -/

/-- C10: for a GET request whose URL carries a query (`getPath` and
`queryTail` split it at the first `?`), `genHandler` rebuilds the URL as
the routed path directly concatenated with the query text, the `?`
separator lost; all subsequent static resolution — and the location of a
route-driven redirect — operates on that concatenation. -/
theorem query_concat_without_separator :
    ∀ (routes : List Route) (cfg : Cfg) (url p q : String) (inm : Option String),
      getPath url = p →
      queryTail url = q →
      jsStartsWith p "//" = false →
      ((route routes p).1 = false →
          genHandler routes cfg "GET" url inm
            = staticThenNext cfg inm ((route routes p).2 ++ q))
      ∧ ((route routes p).1 = true →
          genHandler routes cfg "GET" url inm
            = redirectResp initState ((route routes p).2 ++ q)) := by
  intro routes cfg url p q inm hp hq hmk
  subst hp
  subst hq
  constructor <;> intro h <;> simp [genHandler, hmk, h]

/-- C10 witness: for `/a?x=1` with no matching rule the static resolver
receives `/ax=1`; with a redirect rule for `/a` the client is sent to
`/bx=1`. -/
theorem query_concat_without_separator_instance :
    genHandler [] sampleCfg "GET" "/a?x=1" none = staticThenNext sampleCfg none "/ax=1"
    ∧ genHandler [mkRoute "" "/a" ">" "/b"] sampleCfg "GET" "/a?x=1" none
      = redirectResp initState "/bx=1" := by
  constructor
  · have h := (query_concat_without_separator [] sampleCfg "/a?x=1" "/a" "x=1" none
      rfl rfl (by decide)).1 (by decide)
    exact h.trans (by decide)
  · have h := (query_concat_without_separator [mkRoute "" "/a" ">" "/b"] sampleCfg
      "/a?x=1" "/a" "x=1" none rfl rfl (by decide)).2 (by decide)
    exact h.trans (by decide)

end Serve
